import Mathlib

set_option maxRecDepth 8000
set_option maxHeartbeats 1000000

/-!
Verification development for the adaptive request-rate controller of
`src/scanner/utils.rs` (feroxbuster): the `LimitHeap` array-backed tree of
candidate request rates, `PolicyData` and its `adjust_up` / `adjust_down` /
`set_reqs_sec` operations, and the `Requester` orchestration
(`set_rate_limiter`, `adjust_limit`, `tune`, `bail`, `limit`,
`should_enforce_policy`).

Modelling conventions:
* `i32` values are modelled as `Int` and `usize` values as `Nat`; the Rust
  casts `usize as i32` and `i32 as usize` are modelled explicitly
  (`i32ofNat`, `usizeOfI32`) with two's-complement wrapping.  Arithmetic
  inside `LimitHeap` never overflows `i32` for in-range seeds (proved below:
  every node value lies in `[0, original]`), so plain `Int` arithmetic is
  faithful there.  Rust `i32` division truncates toward zero, which is
  `Int.tdiv`.
* The `[i32; 255]` backing array is modelled as a total function
  `Nat → Int`; every access the program performs is within `0..=254`.
* Locks: `heap.try_write()` in `adjust_up` / `adjust_down` / `set_reqs_sec`
  models the successful-acquisition path; for `adjust_limit`, whether the
  non-blocking `tuning_lock.try_lock()` succeeds is an explicit boolean
  input.  Async suspension points are sequentialised; `cool_down` only
  toggles the `cooling_down` flag around a sleep and is not modelled.
* External collaborators (`FeroxScan` counters, process-wide stats, the
  progress bar, the result of `acquire_one()`) enter as explicit inputs.
  The `LeakyBucket` is modelled by the four construction parameters
  `build_a_bucket` passes to its builder; its `f64` rounding is exact
  half-away-from-zero rounding on the rationals involved, which agrees with
  `f64` for all realistic limits.
-/

/-- Length of the backing array of a `LimitHeap`: 255 nodes, a complete
binary tree of height 7 (`self.inner.len()` in the source). -/
def innerLen : Nat := 255

/-- Rust cast `usize as i32` (two's complement wrap of the low 32 bits). -/
def i32ofNat (n : Nat) : Int :=
  if n % 2 ^ 32 < 2 ^ 31 then ((n % 2 ^ 32 : Nat) : Int)
  else ((n % 2 ^ 32 : Nat) : Int) - 2 ^ 32

/-- Rust cast `i32 as usize` (sign extension then reinterpretation as a
64-bit unsigned value); for `v` in the `i32` range this is `(v % 2^64).toNat`. -/
def usizeOfI32 (v : Int) : Nat := (v % 2 ^ 64).toNat

/-- bespoke variation on an array-backed max-heap: 255 candidate
requests/second values generated from the initial requests/second
(`struct LimitHeap` in the source). -/
structure LimitHeap where
  inner : Nat → Int
  original : Int
  current : Nat

/-- `Default` implementation of `LimitHeap`: zero-initialised backing array. -/
def LimitHeap.default : LimitHeap := ⟨fun _ => 0, 0, 0⟩

/-- A zeroed heap carrying the seed `orig`, the state on which `build` runs
when `set_reqs_sec` is first called on a fresh `PolicyData`. -/
def initHeap (orig : Int) : LimitHeap := ⟨fun _ => 0, orig, 0⟩

/-- check if the current node has children: the inner structure is a
complete tree, so the source just checks for the right child
(`self.current * 2 + 2 <= self.inner.len()`). -/
def LimitHeap.has_children (h : LimitHeap) : Bool := h.current * 2 + 2 ≤ innerLen

/-- check that this node has a parent (true for all except root). -/
def LimitHeap.has_parent (h : LimitHeap) : Bool := h.current > 0

/-- move to right child; return the node's index from which the move was
requested (the state together with the returned index). -/
def LimitHeap.move_right (h : LimitHeap) : LimitHeap × Nat :=
  if h.has_children then ({ h with current := h.current * 2 + 2 }, h.current)
  else (h, h.current)

/-- move to left child; return the node's index from which the move was
requested. -/
def LimitHeap.move_left (h : LimitHeap) : LimitHeap × Nat :=
  if h.has_children then ({ h with current := h.current * 2 + 1 }, h.current)
  else (h, h.current)

/-- move to parent; return the node's index from which the move was
requested. -/
def LimitHeap.move_up (h : LimitHeap) : LimitHeap × Nat :=
  if h.has_parent then ({ h with current := (h.current - 1) / 2 }, h.current)
  else (h, h.current)

/-- move directly to the given index. -/
def LimitHeap.move_to (h : LimitHeap) (index : Nat) : LimitHeap :=
  { h with current := index }

/-- get the current node's value. -/
def LimitHeap.value (h : LimitHeap) : Int := h.inner h.current

/-- set the current node's value. -/
def LimitHeap.set_value (h : LimitHeap) (v : Int) : LimitHeap :=
  { h with inner := fun j => if j = h.current then v else h.inner j }

/-- raw array write `self.inner[i] = v` (used directly by `build`). -/
def LimitHeap.write (h : LimitHeap) (i : Nat) (v : Int) : LimitHeap :=
  { h with inner := fun j => if j = i then v else h.inner j }

/-- get the node's parent's value, or `self.original` if at the root.  The
source temporarily ascends, reads, and restores `current`; the net effect
is this pure read. -/
def LimitHeap.parent_value (h : LimitHeap) : Int :=
  if h.has_parent then ((h.move_up).1).value else h.original

/-- get the current node's right child's value (the source moves, reads and
restores `current`; the net effect is this pure read). -/
def LimitHeap.right_child_value (h : LimitHeap) : Int := ((h.move_right).1).value

/-- set the current node's left child's value:
`((parent - current).abs() / 2) + current`. -/
def LimitHeap.set_left_child (h : LimitHeap) : LimitHeap :=
  let parent := h.parent_value
  let current := h.value
  let value := Int.tdiv |parent - current| 2 + current
  ((((h.move_left).1).set_value value).move_up).1

/-- set the current node's right child's value:
`current - ((parent - current).abs() / 2)`. -/
def LimitHeap.set_right_child (h : LimitHeap) : LimitHeap :=
  let parent := h.parent_value
  let current := h.value
  let value := current - Int.tdiv |parent - current| 2
  ((((h.move_right).1).set_value value).move_up).1

/-- one iteration of the `build` loop body: move to index `i`, and if the
node has an unset child (right child still 0), write both children. -/
def buildStep (h : LimitHeap) (i : Nat) : LimitHeap :=
  let h := h.move_to i
  if h.has_children && h.right_child_value == 0 then (h.set_left_child).set_right_child
  else h

/-- the `for i in 1..self.inner.len()` loop of `build`, as a structural
recursion on the remaining iteration count. -/
def buildIter (h : LimitHeap) (i : Nat) : Nat → LimitHeap
  | 0 => h
  | n + 1 => buildIter (buildStep h i) (i + 1) n

/-- iterate over the backing array, filling in each child's value based on
the original value (`LimitHeap::build`). -/
def LimitHeap.build (h : LimitHeap) : LimitHeap :=
  let root := Int.tdiv h.original 2
  let h1 := h.write 0 root
  let h2 := h1.write 1 (Int.tdiv |h.original - root| 2 + root)
  let h3 := h2.write 2 (root - Int.tdiv |h.original - root| 2)
  (buildIter h3 1 254).move_to 0

/-- the heap cursor after moving up twice (the shared prelude of the
`streak > 2` and leaf cases of `adjust_up`). -/
def upTwice (h : LimitHeap) : LimitHeap := (((h.move_up).1).move_up).1

/-- closed form of the node values `build` produces from a zeroed array:
`vp orig i = (value of node i, value of node i's parent)`, with the root's
parent value being `original` (as `parent_value` reports). -/
def vp (orig : Int) : Nat → Int × Int
  | 0 => (Int.tdiv orig 2, orig)
  | i + 1 =>
    let p := vp orig (i / 2)
    let d := Int.tdiv |p.2 - p.1| 2
    (if (i + 1) % 2 = 1 then p.1 + d else p.1 - d, p.1)
decreasing_by
  omega

/-- loop invariant for `build` starting from a zeroed array: after the
iterations for indices `1..=k` have run, every slot up to `2*k + 2` holds
its closed-form value and every slot beyond is still zero. -/
def BuildInv (orig : Int) (k : Nat) (h : LimitHeap) : Prop :=
  h.original = orig ∧
  (∀ j, j < innerLen → j ≤ 2 * k + 2 → h.inner j = (vp orig j).1) ∧
  (∀ j, 2 * k + 2 < j → h.inner j = 0)

/-- how to handle exceptional cases such as too many errors / 403s / 429s
(`config::RequesterPolicy`; the source of this enum is outside the scanner
module, its three variants are as the configuration documents them). -/
inductive RequesterPolicy where
  | Default
  | AutoTune
  | AutoBail
deriving DecidableEq

/-- represents different situations where different criteria can trigger
auto-tune/bail behavior. -/
inductive PolicyTrigger where
  | Status403
  | Status429
  | Errors
deriving DecidableEq

/-- data regarding policy and metadata about last enforced trigger
(`struct PolicyData`; the atomics are modelled as plain fields, state
transitions being sequentialised). -/
structure PolicyData where
  policy : RequesterPolicy
  cooling_down : Bool
  wait_time : Nat
  limit : Nat
  errors : Nat
  remove_limit : Bool
  heap : LimitHeap

/-- `PolicyData::new`: `wait_time = ((timeout as f64 / 2.0) * 1000.0) as u64`,
which is exactly `timeout * 500`, defaults everywhere else. -/
def PolicyData.new (policy : RequesterPolicy) (timeout : Nat) : PolicyData :=
  { policy := policy, cooling_down := false, wait_time := timeout * 500,
    limit := 0, errors := 0, remove_limit := false, heap := LimitHeap.default }

/-- `PolicyData::default()`: all-zero fields, zeroed heap. -/
def policyDataDefault : PolicyData :=
  { policy := RequesterPolicy.Default, cooling_down := false, wait_time := 0,
    limit := 0, errors := 0, remove_limit := false, heap := LimitHeap.default }

/-- setter for limit (`atomic_store!(self.limit, limit)`). -/
def PolicyData.set_limit (pd : PolicyData) (limit : Nat) : PolicyData :=
  { pd with limit := limit }

/-- getter for limit. -/
def PolicyData.get_limit (pd : PolicyData) : Nat := pd.limit

/-- setter for errors. -/
def PolicyData.set_errors (pd : PolicyData) (errors : Nat) : PolicyData :=
  { pd with errors := errors }

/-- setter for requests / second: seed the heap and build it, then set the
limit to the new root (`inner[0] as usize`), i.e. half the request rate. -/
def PolicyData.set_reqs_sec (pd : PolicyData) (reqs_sec : Nat) : PolicyData :=
  let heap := { pd.heap with original := i32ofNat reqs_sec }
  let heap := heap.build
  ({ pd with heap := heap }).set_limit (usizeOfI32 (heap.inner 0))

/-- adjust the rate of requests per second up (increase rate); models the
body run when `self.heap.try_write()` succeeds. -/
def PolicyData.adjust_up (pd : PolicyData) (streak_counter : Nat) : PolicyData :=
  if streak_counter > 2 then
    -- streak of 3 upward moves in a row: traverse the tree upward
    let current := pd.heap.value
    let heap := upTwice pd.heap
    let hp :=
      if current > heap.value then
        if heap.has_parent = true ∧ heap.parent_value > current then
          ((heap.move_up).1, pd)
        else if heap.has_parent = false then
          (heap, { pd with remove_limit := true })
        else (heap, pd)
      else (heap, pd)
    ({ hp.2 with heap := hp.1 }).set_limit (usizeOfI32 ((hp.1).value))
  else if pd.heap.has_children then
    -- streak not at 3: move down-left
    let heap := ((pd.heap.move_left).1)
    ({ pd with heap := heap }).set_limit (usizeOfI32 (heap.value))
  else
    -- tree bottomed out: move back up the tree a bit
    let current := pd.heap.value
    let heap := upTwice pd.heap
    let heap := if current > heap.value then ((heap.move_up).1) else heap
    ({ pd with heap := heap }).set_limit (usizeOfI32 (heap.value))

/-- adjust the rate of requests per second down (decrease rate); models the
body run when `self.heap.try_write()` succeeds. -/
def PolicyData.adjust_down (pd : PolicyData) : PolicyData :=
  if pd.heap.has_children then
    let heap := ((pd.heap.move_right).1)
    ({ pd with heap := heap }).set_limit (usizeOfI32 (heap.value))
  else pd

/-- the four parameters `Requester::build_a_bucket` passes to the
`LeakyBucket` builder. -/
structure Bucket where
  refill : Nat
  tokens : Nat
  interval : Nat
  max : Nat
deriving DecidableEq

/-- build a LeakyBucket, given a rate limit (as requests per second):
`refill = max(round(limit/10), 1)`, `tokens = max(round(limit/2), 1)`,
`interval = 1000ms` if `refill == 1` else `100ms`, `max = limit`.  The
`f64` `round` (half away from zero) on `limit/10` and `limit/2` is
`(limit + 5) / 10` resp. `(limit + 1) / 2` in natural-number division. -/
def build_a_bucket (limit : Nat) : Bucket :=
  let refill := Nat.max ((limit + 5) / 10) 1
  let tokens := Nat.max ((limit + 1) / 2) 1
  let interval := if refill = 1 then 1000 else 100
  { refill := refill, tokens := tokens, interval := interval, max := limit }

/-- per-scan orchestrator state relevant to rate control (`struct
Requester`): the swappable limiter, the policy data, and the streak counter
stored inside `tuning_lock`.  External handles (config, scan counters,
stats) enter operations as explicit arguments. -/
structure Requester where
  rate_limiter : Option Bucket
  policy_data : PolicyData
  tuning_lock : Nat

/-- lock the rate limiter and set its value to a new leaky bucket:
`None` removes the limiter; `Some n` is a no-op if the existing bucket
already has `max == n`, and otherwise installs `build_a_bucket n`. -/
def Requester.set_rate_limiter (r : Requester) (new_limit : Option Nat) : Requester :=
  match new_limit, r.rate_limiter with
  | none, _ => { r with rate_limiter := none }
  | some n, some b =>
    if b.max = n then r else { r with rate_limiter := some (build_a_bucket n) }
  | some n, none => { r with rate_limiter := some (build_a_bucket n) }

/-- wrapper for the `adjust_[up,down]` functions; checks error levels to
determine adjustment direction.  `scan_errors` is
`self.ferox_scan.num_errors(trigger)`, and `lock_acquired` tells whether
the non-blocking `self.tuning_lock.try_lock()` succeeded. -/
def Requester.adjust_limit (r : Requester) (scan_errors : Nat) (lock_acquired : Bool)
    (create_limiter : Bool) : Requester :=
  let r :=
    if lock_acquired then
      if scan_errors > r.policy_data.errors then
        -- errors have increased: reset the streak counter, reduce the limit
        let r := { r with tuning_lock := 0 }
        let r :=
          if r.policy_data.errors ≠ 0 then { r with policy_data := r.policy_data.adjust_down }
          else r
        { r with policy_data := r.policy_data.set_errors scan_errors }
      else
        -- errors unchanged (they only increase): extend the streak, raise the limit
        let r := { r with tuning_lock := r.tuning_lock + 1 }
        { r with policy_data := r.policy_data.adjust_up r.tuning_lock }
    else r
  if r.policy_data.remove_limit = true then
    let r := r.set_rate_limiter none
    { r with policy_data := { r.policy_data with remove_limit := false } }
  else if create_limiter then
    r.set_rate_limiter (some r.policy_data.get_limit)
  else r

/-- enforce the auto-tune policy: on the first call (`errors == 0`) seed the
heap from the scan's observed requests/second and install a bucket sized to
the new limit; then run `adjust_limit(trigger, true)`.  (`cool_down`, which
only toggles the cooldown flag around a sleep, is not modelled.) -/
def Requester.tune (r : Requester) (reqs_sec : Nat) (scan_errors : Nat)
    (lock_acquired : Bool) : Requester :=
  let r :=
    if r.policy_data.errors = 0 then
      let r := { r with policy_data := r.policy_data.set_reqs_sec reqs_sec }
      r.set_rate_limiter (some r.policy_data.get_limit)
    else r
  r.adjust_limit scan_errors lock_acquired true

/-- limit the number of requests per second: the source unwraps the
optional limiter, so a call with `rate_limiter == None` panics (modelled as
`none`); otherwise the result of `acquire_one().await?` is propagated. -/
def Requester.limit (r : Requester) (acquire_res : Except String Unit) :
    Option (Except String Unit) :=
  match r.rate_limiter with
  | none => none
  | some _ => some acquire_res

/-- the guard `request` computes before calling `limit`:
`(config.auto_tune || config.rate_limit > 0) && rate_limiter.is_some()`. -/
def Requester.should_limit (r : Requester) (auto_tune : Bool) (rate_limit : Nat) : Bool :=
  (auto_tune || decide (rate_limit > 0)) && (r.rate_limiter).isSome

/-- `too_many_errors`: at least `max(threads / 2, 25)` general errors. -/
def too_many_errors (threads scan_errors : Nat) : Bool :=
  decide (scan_errors ≥ Nat.max (threads / 2) 25)

/-- the comparison `total as f64 / requests as f64 >= q` with IEEE
division-by-zero semantics: `0/0` is NaN (compares false) and `t/0` for
`t > 0` is infinity (compares true); away from zero the `f64` quotient is
modelled as the exact rational. -/
def ratio_ge (total requests : Nat) (q : ℚ) : Bool :=
  if requests = 0 then decide (0 < total)
  else decide (q ≤ (total : ℚ) / (requests : ℚ))

/-- `too_many_status_errors`: 403s at ratio `HIGH_ERROR_RATIO` (0.90), 429s
at `HIGH_ERROR_RATIO / 3.0`; always false for the `Errors` trigger. -/
def too_many_status_errors (trigger : PolicyTrigger) (total requests : Nat) : Bool :=
  match trigger with
  | PolicyTrigger.Status403 => ratio_ge total requests (9 / 10)
  | PolicyTrigger.Status429 => ratio_ge total requests (9 / 10 / 3)
  | PolicyTrigger.Errors => false

/-- determine whether or not a policy needs to be enforced
(`Requester::should_enforce_policy`): `stats_requests` is the process-wide
`stats.data.requests`, the `scan_*` inputs are the per-scan counters. -/
def should_enforce_policy (cooling_down : Bool) (stats_requests threads : Nat)
    (scan_errors scan_403s scan_429s scan_requests : Nat) : Option PolicyTrigger :=
  if cooling_down then none
  else if stats_requests < Nat.max threads 50 then none
  else if too_many_errors threads scan_errors then some PolicyTrigger.Errors
  else if too_many_status_errors PolicyTrigger.Status403 scan_403s scan_requests then
    some PolicyTrigger.Status403
  else if too_many_status_errors PolicyTrigger.Status429 scan_429s scan_requests then
    some PolicyTrigger.Status429
  else none

/-- the externally observable actions of `Requester::bail`. -/
inductive BailEffect where
  | setStatusCancelled
  | abortScan
  | subtractExpected (num_skipped : Nat)
deriving DecidableEq

/-- enforce the auto-bail policy (`Requester::bail`): when the scan is
active, set its status to Cancelled, abort it, and subtract the skipped
requests from the expected total — the results of the status-set, abort and
stats-send sub-steps (`set_status_res`, `abort_res`, `send_res`) are each
consumed by `unwrap_or_else(log)` and never affect control flow or the
returned value; when the scan is not active, do nothing.  The returned pair
is (the function's result, the effects performed in order). -/
def bail (is_active : Bool) (set_status_res abort_res send_res : Except String Unit)
    (pb_length pb_position : Nat) : Except String Unit × List BailEffect :=
  if is_active then
    let num_skipped := pb_length - pb_position
    (Except.ok (), [BailEffect.setStatusCancelled, BailEffect.abortScan,
      BailEffect.subtractExpected num_skipped])
  else (Except.ok (), [])

/-- the state of the test scenario for `adjust_up` with a streak at index 7
of the 400-seeded tree (cursor parked two levels below a left spine). -/
def pd400c7 : PolicyData :=
  let pd := policyDataDefault.set_reqs_sec 400
  { pd with heap := { pd.heap with current := 7 } }

/-- a requester holding a 200-max bucket whose policy data has
`remove_limit` set. -/
def requesterR1 : Requester :=
  { rate_limiter := some (build_a_bucket 200),
    policy_data := { policyDataDefault with remove_limit := true },
    tuning_lock := 2 }

/-- a fresh requester with no limiter installed and default policy data
(the state in which a first `tune` runs for a scan without `--rate-limit`). -/
def requesterFresh : Requester :=
  { rate_limiter := none, policy_data := policyDataDefault, tuning_lock := 0 }

/-! ### Basic facts about the heap operations -/

/-- moving up never changes the backing array. -/
lemma move_up_inner (h : LimitHeap) : ((h.move_up).1).inner = h.inner := by
  simp only [LimitHeap.move_up]
  split <;> rfl

/-- moving up never changes the seed. -/
lemma move_up_original (h : LimitHeap) : ((h.move_up).1).original = h.original := by
  simp only [LimitHeap.move_up]
  split <;> rfl

/-- the cursor after a move up is `(current - 1) / 2` (also when the move
is the root no-op, since `(0 - 1) / 2 = 0` in truncated naturals). -/
lemma move_up_current (h : LimitHeap) : ((h.move_up).1).current = (h.current - 1) / 2 := by
  simp only [LimitHeap.move_up, LimitHeap.has_parent]
  split
  · rfl
  · next hc =>
    simp only [decide_eq_true_eq, not_lt, Nat.le_zero] at hc
    simp [hc]

/-- moving left never changes the backing array. -/
lemma move_left_inner (h : LimitHeap) : ((h.move_left).1).inner = h.inner := by
  simp only [LimitHeap.move_left]
  split <;> rfl

/-- moving right never changes the backing array. -/
lemma move_right_inner (h : LimitHeap) : ((h.move_right).1).inner = h.inner := by
  simp only [LimitHeap.move_right]
  split <;> rfl

/-- `upTwice` never changes the backing array. -/
lemma upTwice_inner (h : LimitHeap) : (upTwice h).inner = h.inner := by
  simp [upTwice, move_up_inner]

/-- `has_children` holds exactly on cursors `0..=126`. -/
lemma has_children_iff (h : LimitHeap) : h.has_children = true ↔ h.current ≤ 126 := by
  simp only [LimitHeap.has_children, innerLen, decide_eq_true_eq]
  omega

/-! ### Truncated division on casts of naturals -/

/-- Rust `i32` division of non-negative values agrees with natural division. -/
lemma tdiv_ofNat_two (n : Nat) : Int.tdiv (n : Int) 2 = ((n / 2 : Nat) : Int) := rfl

/-- the absolute difference of two integers, halved by truncated division,
written through `natAbs`. -/
lemma tdiv_abs_two (a : Int) : Int.tdiv |a| 2 = ((a.natAbs / 2 : Nat) : Int) := by
  rw [Int.abs_eq_natAbs]
  rfl

/-- halving an absolute value is non-negative. -/
lemma tdiv_abs_two_nonneg (a : Int) : 0 ≤ Int.tdiv |a| 2 := by
  rw [tdiv_abs_two]
  exact Int.ofNat_nonneg _

/-! ### The closed form of the built tree -/

/-- the parent value recorded in `vp` is the parent node's value. -/
lemma vp_snd (orig : Int) (i : Nat) (hi : 1 ≤ i) :
    (vp orig i).2 = (vp orig ((i - 1) / 2)).1 := by
  obtain ⟨m, rfl⟩ : ∃ m, i = m + 1 := ⟨i - 1, by omega⟩
  rw [vp]
  simp [Nat.add_sub_cancel]

/-- the left child's closed-form value: parent plus half the gap. -/
lemma vp_left (orig : Int) (i : Nat) :
    vp orig (2 * i + 1) =
      ((vp orig i).1 + Int.tdiv |(vp orig i).2 - (vp orig i).1| 2, (vp orig i).1) := by
  rw [show 2 * i + 1 = (2 * i) + 1 from rfl, vp]
  have h1 : 2 * i / 2 = i := by omega
  have h2 : (2 * i + 1) % 2 = 1 := by omega
  simp [h1, h2]

/-- the right child's closed-form value: parent minus half the gap. -/
lemma vp_right (orig : Int) (i : Nat) :
    vp orig (2 * i + 2) =
      ((vp orig i).1 - Int.tdiv |(vp orig i).2 - (vp orig i).1| 2, (vp orig i).1) := by
  rw [show 2 * i + 2 = (2 * i + 1) + 1 from rfl, vp]
  have h1 : (2 * i + 1) / 2 = i := by omega
  have h2 : ¬((2 * i + 1 + 1) % 2 = 1) := by omega
  simp [h1, h2]

/-! ### Effect of one build iteration -/

/-- reading the parent slot through a move up. -/
lemma move_up_value (h : LimitHeap) : ((h.move_up).1).value = h.inner ((h.current - 1) / 2) := by
  rw [LimitHeap.value, move_up_inner, move_up_current]

/-- `set_left_child` at a non-root cursor with children writes
`|parent - current| / 2 + current` into the left child slot. -/
lemma set_left_child_inner (h : LimitHeap) (hp : 1 ≤ h.current)
    (hc : h.current * 2 + 2 ≤ innerLen) (j : Nat) :
    (h.set_left_child).inner j =
      if j = h.current * 2 + 1 then
        Int.tdiv |h.inner ((h.current - 1) / 2) - h.inner h.current| 2 + h.inner h.current
      else h.inner j := by
  have hpar : h.has_parent = true := by
    simp only [LimitHeap.has_parent, decide_eq_true_eq]
    omega
  have hch : h.has_children = true := by
    simp only [LimitHeap.has_children, decide_eq_true_eq, innerLen] at hc ⊢
    omega
  unfold LimitHeap.set_left_child
  rw [LimitHeap.parent_value, if_pos hpar, move_up_value]
  rw [LimitHeap.move_left, if_pos hch]
  rw [move_up_inner]
  simp only [LimitHeap.set_value, LimitHeap.value]

/-- `set_left_child` restores the cursor. -/
lemma set_left_child_current (h : LimitHeap) (hp : 1 ≤ h.current)
    (hc : h.current * 2 + 2 ≤ innerLen) :
    (h.set_left_child).current = h.current := by
  have hch : h.has_children = true := by
    simp only [LimitHeap.has_children, decide_eq_true_eq, innerLen] at hc ⊢
    omega
  unfold LimitHeap.set_left_child
  rw [LimitHeap.move_left, if_pos hch]
  rw [move_up_current]
  simp only [LimitHeap.set_value]
  omega

/-- `set_left_child` keeps the seed. -/
lemma set_left_child_original (h : LimitHeap) (hp : 1 ≤ h.current)
    (hc : h.current * 2 + 2 ≤ innerLen) :
    (h.set_left_child).original = h.original := by
  have hch : h.has_children = true := by
    simp only [LimitHeap.has_children, decide_eq_true_eq, innerLen] at hc ⊢
    omega
  unfold LimitHeap.set_left_child
  rw [LimitHeap.move_left, if_pos hch]
  rw [move_up_original]
  simp only [LimitHeap.set_value]

/-- `set_right_child` at a non-root cursor with children writes
`current - |parent - current| / 2` into the right child slot. -/
lemma set_right_child_inner (h : LimitHeap) (hp : 1 ≤ h.current)
    (hc : h.current * 2 + 2 ≤ innerLen) (j : Nat) :
    (h.set_right_child).inner j =
      if j = h.current * 2 + 2 then
        h.inner h.current - Int.tdiv |h.inner ((h.current - 1) / 2) - h.inner h.current| 2
      else h.inner j := by
  have hpar : h.has_parent = true := by
    simp only [LimitHeap.has_parent, decide_eq_true_eq]
    omega
  have hch : h.has_children = true := by
    simp only [LimitHeap.has_children, decide_eq_true_eq, innerLen] at hc ⊢
    omega
  unfold LimitHeap.set_right_child
  rw [LimitHeap.parent_value, if_pos hpar, move_up_value]
  rw [LimitHeap.move_right, if_pos hch]
  rw [move_up_inner]
  simp only [LimitHeap.set_value, LimitHeap.value]

/-- `set_right_child` restores the cursor. -/
lemma set_right_child_current (h : LimitHeap) (hp : 1 ≤ h.current)
    (hc : h.current * 2 + 2 ≤ innerLen) :
    (h.set_right_child).current = h.current := by
  have hch : h.has_children = true := by
    simp only [LimitHeap.has_children, decide_eq_true_eq, innerLen] at hc ⊢
    omega
  unfold LimitHeap.set_right_child
  rw [LimitHeap.move_right, if_pos hch]
  rw [move_up_current]
  simp only [LimitHeap.set_value]
  omega

/-- `set_right_child` keeps the seed. -/
lemma set_right_child_original (h : LimitHeap) (hp : 1 ≤ h.current)
    (hc : h.current * 2 + 2 ≤ innerLen) :
    (h.set_right_child).original = h.original := by
  have hch : h.has_children = true := by
    simp only [LimitHeap.has_children, decide_eq_true_eq, innerLen] at hc ⊢
    omega
  unfold LimitHeap.set_right_child
  rw [LimitHeap.move_right, if_pos hch]
  rw [move_up_original]
  simp only [LimitHeap.set_value]

/-- a build iteration at a childless index (`i ≥ 127`) only moves the cursor. -/
lemma buildStep_skip (h : LimitHeap) (i : Nat) (h2 : innerLen < i * 2 + 2) :
    buildStep h i = h.move_to i := by
  unfold buildStep
  rw [if_neg]
  intro hcond
  have : (h.move_to i).has_children = true := (Bool.and_eq_true _ _ |>.mp hcond).1
  simp only [LimitHeap.has_children, LimitHeap.move_to, decide_eq_true_eq] at this
  omega

/-- a build iteration at an index whose right child slot is still zero
performs the two child writes; the backing array afterwards. -/
lemma buildStep_write_inner (h : LimitHeap) (i : Nat) (h1 : 1 ≤ i)
    (h2 : i * 2 + 2 ≤ innerLen) (hz : h.inner (i * 2 + 2) = 0) (j : Nat) :
    (buildStep h i).inner j =
      if j = i * 2 + 2 then
        h.inner i - Int.tdiv |h.inner ((i - 1) / 2) - h.inner i| 2
      else if j = i * 2 + 1 then
        Int.tdiv |h.inner ((i - 1) / 2) - h.inner i| 2 + h.inner i
      else h.inner j := by
  have hmt_cur : (h.move_to i).current = i := rfl
  have hp0 : 1 ≤ (h.move_to i).current := by omega
  have hc0 : (h.move_to i).current * 2 + 2 ≤ innerLen := by
    rw [hmt_cur]
    exact h2
  have key : buildStep h i = ((h.move_to i).set_left_child).set_right_child := by
    unfold buildStep
    rw [if_pos]
    rw [Bool.and_eq_true]
    constructor
    · simp only [LimitHeap.has_children, LimitHeap.move_to, decide_eq_true_eq]
      exact h2
    · rw [LimitHeap.right_child_value, LimitHeap.value, move_right_inner]
      have : (((h.move_to i).move_right).1).current = i * 2 + 2 := by
        rw [LimitHeap.move_right, if_pos]
        · rfl
        · simp only [LimitHeap.has_children, LimitHeap.move_to, decide_eq_true_eq]
          exact h2
      rw [this]
      simp only [LimitHeap.move_to, hz, beq_self_eq_true]
  have hXcur : ((h.move_to i).set_left_child).current = i :=
    set_left_child_current _ hp0 hc0
  have hXinner : ∀ k, ((h.move_to i).set_left_child).inner k =
      if k = i * 2 + 1 then
        Int.tdiv |h.inner ((i - 1) / 2) - h.inner i| 2 + h.inner i
      else h.inner k := by
    intro k
    rw [set_left_child_inner _ hp0 hc0 k]
    rfl
  have hp1 : 1 ≤ ((h.move_to i).set_left_child).current := by omega
  have hc1 : ((h.move_to i).set_left_child).current * 2 + 2 ≤ innerLen := by
    rw [hXcur]
    exact h2
  rw [key, set_right_child_inner _ hp1 hc1 j, hXcur]
  have e1 : ((h.move_to i).set_left_child).inner i = h.inner i := by
    rw [hXinner, if_neg (by omega)]
  have e2 : ((h.move_to i).set_left_child).inner ((i - 1) / 2) = h.inner ((i - 1) / 2) := by
    rw [hXinner, if_neg (by omega)]
  rw [e1, e2]
  by_cases hj2 : j = i * 2 + 2
  · rw [if_pos hj2, if_pos hj2]
  · rw [if_neg hj2, if_neg hj2, hXinner j]

/-- the cursor after a child-writing build iteration is the visited index. -/
lemma buildStep_write_current (h : LimitHeap) (i : Nat) (h1 : 1 ≤ i)
    (h2 : i * 2 + 2 ≤ innerLen) (hz : h.inner (i * 2 + 2) = 0) :
    (buildStep h i).current = i := by
  have hmt_cur : (h.move_to i).current = i := rfl
  have hp0 : 1 ≤ (h.move_to i).current := by omega
  have hc0 : (h.move_to i).current * 2 + 2 ≤ innerLen := by
    rw [hmt_cur]
    exact h2
  have key : buildStep h i = ((h.move_to i).set_left_child).set_right_child := by
    unfold buildStep
    rw [if_pos]
    rw [Bool.and_eq_true]
    constructor
    · simp only [LimitHeap.has_children, LimitHeap.move_to, decide_eq_true_eq]
      exact h2
    · rw [LimitHeap.right_child_value, LimitHeap.value, move_right_inner]
      have : (((h.move_to i).move_right).1).current = i * 2 + 2 := by
        rw [LimitHeap.move_right, if_pos]
        · rfl
        · simp only [LimitHeap.has_children, LimitHeap.move_to, decide_eq_true_eq]
          exact h2
      rw [this]
      simp only [LimitHeap.move_to, hz, beq_self_eq_true]
  have hXcur : ((h.move_to i).set_left_child).current = i :=
    set_left_child_current _ hp0 hc0
  have hp1 : 1 ≤ ((h.move_to i).set_left_child).current := by omega
  have hc1 : ((h.move_to i).set_left_child).current * 2 + 2 ≤ innerLen := by
    rw [hXcur]
    exact h2
  rw [key, set_right_child_current _ hp1 hc1, hXcur]

/-- a build iteration at a positive index never changes the seed. -/
lemma buildStep_original (h : LimitHeap) (i : Nat) (h1 : 1 ≤ i) :
    (buildStep h i).original = h.original := by
  unfold buildStep
  dsimp only
  split
  · next hcond =>
    have hch : (h.move_to i).has_children = true := (Bool.and_eq_true _ _ |>.mp hcond).1
    simp only [LimitHeap.has_children, LimitHeap.move_to, decide_eq_true_eq] at hch
    have hp0 : 1 ≤ (h.move_to i).current := h1
    have hc0 : (h.move_to i).current * 2 + 2 ≤ innerLen := hch
    have hXcur : ((h.move_to i).set_left_child).current = i :=
      set_left_child_current _ hp0 hc0
    rw [set_right_child_original _ (by omega) (by rw [hXcur]; exact hch),
      set_left_child_original _ hp0 hc0]
    rfl
  · rfl

/-! ### The build loop satisfies the invariant -/

/-- one build iteration preserves the invariant, advancing the frontier. -/
lemma buildStep_inv (orig : Int) (k : Nat) (h : LimitHeap) (hI : BuildInv orig k h) :
    BuildInv orig (k + 1) (buildStep h (k + 1)) := by
  have hIL : innerLen = 255 := rfl
  obtain ⟨hOrig, hA, hB⟩ := hI
  by_cases hc : (k + 1) * 2 + 2 ≤ innerLen
  · have hz : h.inner ((k + 1) * 2 + 2) = 0 := hB _ (by omega)
    have hiv : h.inner (k + 1) = (vp orig (k + 1)).1 := hA (k + 1) (by omega) (by omega)
    have hpv : h.inner ((k + 1 - 1) / 2) = (vp orig ((k + 1 - 1) / 2)).1 :=
      hA _ (by omega) (by omega)
    refine ⟨?_, ?_, ?_⟩
    · rw [buildStep_original _ _ (by omega)]
      exact hOrig
    · intro j hj hjle
      rw [buildStep_write_inner h (k + 1) (by omega) hc hz j]
      by_cases hj2 : j = (k + 1) * 2 + 2
    
      · rw [if_pos hj2, hj2, show (k + 1) * 2 + 2 = 2 * (k + 1) + 2 by ring, vp_right,
          hiv, hpv, vp_snd orig (k + 1) (by omega)]
      · rw [if_neg hj2]
        by_cases hj1 : j = (k + 1) * 2 + 1
        · rw [if_pos hj1, hj1, show (k + 1) * 2 + 1 = 2 * (k + 1) + 1 by ring, vp_left,
            hiv, hpv, vp_snd orig (k + 1) (by omega)]
          exact add_comm _ _
        · rw [if_neg hj1]
          exact hA j hj (by omega)
    · intro j hjgt
      rw [buildStep_write_inner h (k + 1) (by omega) hc hz j,
        if_neg (by omega), if_neg (by omega)]
      exact hB j (by omega)
  · rw [buildStep_skip h (k + 1) (by omega)]
    refine ⟨hOrig, ?_, ?_⟩
    · intro j hj hjle
      exact hA j hj (by omega)
    · intro j hjgt
      exact hB j (by omega)

/-- running the loop from the frontier `k` preserves the invariant. -/
lemma buildIter_inv (orig : Int) (n : Nat) : ∀ (k : Nat) (h : LimitHeap),
    BuildInv orig k h → BuildInv orig (k + n) (buildIter h (k + 1) n) := by
  induction n with
  | zero =>
    intro k h hI
    simpa using hI
  | succ n ih =>
    intro k h hI
    have h1 : buildIter h (k + 1) (n + 1) = buildIter (buildStep h (k + 1)) (k + 2) n := rfl
    rw [h1, show k + (n + 1) = k + 1 + n by omega]
    exact ih (k + 1) (buildStep h (k + 1)) (buildStep_inv orig k h hI)

/-- the backing array after a raw write. -/
lemma write_inner (h : LimitHeap) (i : Nat) (v : Int) (j : Nat) :
    ((h.write i v)).inner j = if j = i then v else h.inner j := rfl

/-- `move_to` does not touch the backing array. -/
lemma move_to_inner (h : LimitHeap) (i : Nat) : ((h.move_to i)).inner = h.inner := rfl

/-- the zeroed backing array of `initHeap`. -/
lemma initHeap_inner (orig : Int) (j : Nat) : (initHeap orig).inner j = 0 := rfl

/-- `build` unfolded: the three direct root writes, the loop over
`1..=254`, and the final cursor reset. -/
lemma build_eq (h : LimitHeap) :
    h.build =
      (buildIter (((h.write 0 (Int.tdiv h.original 2)).write 1
        (Int.tdiv |h.original - Int.tdiv h.original 2| 2 + Int.tdiv h.original 2)).write 2
        (Int.tdiv h.original 2 - Int.tdiv |h.original - Int.tdiv h.original 2| 2)) 1 254).move_to 0 := rfl

/-- `build` on a zeroed heap with seed `orig` realises the closed form `vp`
at every slot of the backing array. -/
lemma build_inner_eq (orig : Int) (j : Nat) (hj : j < 255) :
    ((initHeap orig).build).inner j = (vp orig j).1 := by
  have horig : (initHeap orig).original = orig := rfl
  have base : BuildInv orig 0
      ((((initHeap orig).write 0 (Int.tdiv (initHeap orig).original 2)).write 1
        (Int.tdiv |(initHeap orig).original - Int.tdiv (initHeap orig).original 2| 2 +
          Int.tdiv (initHeap orig).original 2)).write 2
        (Int.tdiv (initHeap orig).original 2 -
          Int.tdiv |(initHeap orig).original - Int.tdiv (initHeap orig).original 2| 2)) := by
    rw [horig]
    refine ⟨rfl, ?_, ?_⟩
    · intro j hj2 hjle
      have hj3 : j ≤ 2 := by omega
      simp only [write_inner, initHeap_inner]
      interval_cases j
      · have h0 : (vp orig 0).1 = Int.tdiv orig 2 := by
          rw [vp]
        norm_num [h0]
      · have h1 : (vp orig 1).1 = Int.tdiv orig 2 + Int.tdiv |orig - Int.tdiv orig 2| 2 := by
          have hv := vp_left orig 0
          rw [show 2 * 0 + 1 = 1 by ring] at hv
          rw [hv, vp]
        norm_num [h1]
        exact add_comm _ _
      · have h2 : (vp orig 2).1 = Int.tdiv orig 2 - Int.tdiv |orig - Int.tdiv orig 2| 2 := by
          have hv := vp_right orig 0
          rw [show 2 * 0 + 2 = 2 by ring] at hv
          rw [hv, vp]
        norm_num [h2]
    · intro j hjgt
      simp only [write_inner, initHeap_inner]
      rw [if_neg (by omega), if_neg (by omega), if_neg (by omega)]
  rw [build_eq, move_to_inner]
  have key := buildIter_inv orig 254 0 _ base
  rw [show (0 : Nat) + 254 = 254 from rfl, show (0 : Nat) + 1 = 1 from rfl] at key
  exact key.2.1 j (by simpa [innerLen] using hj) (by omega)

/-- `build` always parks the cursor back at the root. -/
lemma build_current (h : LimitHeap) : ((h.build)).current = 0 := rfl

/-- with seed zero the closed form is identically zero. -/
lemma vp_zero : ∀ j, vp 0 j = (0, 0)
  | 0 => by
    rw [vp]
    rfl
  | j + 1 => by
    rw [vp, vp_zero (j / 2)]
    norm_num
decreasing_by
  omega

/-- bounds carried down the tree by the closed form: every node value is
non-negative, the gap to the parent value is at most one more than the node
value, and value plus gap never exceeds the seed. -/
lemma vp_bounds (orig : Int) (h0 : 0 ≤ orig) : ∀ j,
    0 ≤ (vp orig j).1 ∧ |(vp orig j).2 - (vp orig j).1| ≤ (vp orig j).1 + 1 ∧
      (vp orig j).1 + |(vp orig j).2 - (vp orig j).1| ≤ orig
  | 0 => by
    obtain ⟨n, rfl⟩ := Int.eq_ofNat_of_zero_le h0
    rw [vp]
    rw [show Int.tdiv (n : Int) 2 = ((n / 2 : Nat) : Int) from rfl]
    refine ⟨by positivity, ?_, ?_⟩ <;>
      · rw [Int.abs_eq_natAbs]
        omega
  | j + 1 => by
    obtain ⟨ih1, ih2, ih3⟩ := vp_bounds orig h0 (j / 2)
    rw [vp]
    set a := (vp orig (j / 2)).1 with ha
    set b := (vp orig (j / 2)).2 with hb
    rw [tdiv_abs_two]
    set m := (b - a).natAbs with hm
    have hm2 : |b - a| = (m : Int) := by
      rw [Int.abs_eq_natAbs]
    rw [hm2] at ih2 ih3
    by_cases hpar : (j + 1) % 2 = 1
    · rw [if_pos hpar]
      simp only []
      refine ⟨by omega, ?_, ?_⟩ <;>
        · rw [show a - (a + ((m / 2 : Nat) : Int)) = -((m / 2 : Nat) : Int) by ring, abs_neg,
            Int.abs_eq_natAbs]
          omega
    · rw [if_neg hpar]
      simp only []
      refine ⟨by omega, ?_, ?_⟩ <;>
        · rw [show a - (a - ((m / 2 : Nat) : Int)) = ((m / 2 : Nat) : Int) by ring,
            Int.abs_eq_natAbs]
          omega
decreasing_by
  omega

/-! ### Auxiliary facts about casts and the policy-data setters -/

/-- the `usize as i32` cast is transparent below `2^31`. -/
lemma i32ofNat_small (n : Nat) (h : n < 2 ^ 31) : i32ofNat n = (n : Int) := by
  unfold i32ofNat
  have h32 : n % 2 ^ 32 = n := Nat.mod_eq_of_lt (by omega)
  rw [h32, if_pos (by omega)]

/-- the `i32 as usize` cast is transparent on non-negative in-range values. -/
lemma usizeOfI32_ofNat (n : Nat) (h : n < 2 ^ 64) : usizeOfI32 ((n : Nat) : Int) = n := by
  unfold usizeOfI32
  omega

/-- `set_reqs_sec` as a single record update: rebuild the heap from the new
seed and store the new root as the limit. -/
lemma set_reqs_sec_eq (pd : PolicyData) (n : Nat) :
    pd.set_reqs_sec n =
      { pd with
        heap := (LimitHeap.build { pd.heap with original := i32ofNat n })
        limit := usizeOfI32 ((LimitHeap.build { pd.heap with original := i32ofNat n }).inner 0) } := rfl

/-- `set_rate_limiter` only ever touches the `rate_limiter` slot. -/
lemma set_rate_limiter_frame (r : Requester) (nl : Option Nat) :
    (r.set_rate_limiter nl).policy_data = r.policy_data ∧
    (r.set_rate_limiter nl).tuning_lock = r.tuning_lock := by
  unfold Requester.set_rate_limiter
  cases nl with
  | none => exact ⟨rfl, rfl⟩
  | some n =>
    cases r.rate_limiter with
    | none => exact ⟨rfl, rfl⟩
    | some b =>
      dsimp only
      split
      · exact ⟨rfl, rfl⟩
      · exact ⟨rfl, rfl⟩

/-! ### The claims -/

/-- C4: `should_enforce_policy` returns `None` whenever the process-wide
request counter is strictly below `max(config.threads, 50)`, regardless of
the per-scan error counts. -/
theorem c4_min_request_threshold (cooling_down : Bool)
    (stats_requests threads scan_errors scan_403s scan_429s scan_requests : Nat)
    (h : stats_requests < Nat.max threads 50) :
    should_enforce_policy cooling_down stats_requests threads
      scan_errors scan_403s scan_429s scan_requests = none := by
  unfold should_enforce_policy
  cases cooling_down
  · rw [if_neg (by simp), if_pos h]
  · rw [if_pos rfl]

/-- C4 witness: 49 process-wide requests with the default 50 threads is
below the threshold, so even huge per-scan error counts yield `None`. -/
theorem c4_min_request_threshold_witness :
    49 < Nat.max 50 50 ∧
    should_enforce_policy false 49 50 1000 1000 1000 10 = none :=
  ⟨by decide, c4_min_request_threshold false 49 50 1000 1000 1000 10 (by decide)⟩

/-- C6: when `adjust_limit` fails to acquire the tuning lock, the streak
counter, the tree (cursor and contents), `policy_data.errors` and
`policy_data.limit` are all unchanged, yet a pending `remove_limit` is
still honored: the limiter is swapped to `None` and the flag cleared. -/
theorem c6_contended_adjust_frame (r : Requester) (scan_errors : Nat) (create_limiter : Bool) :
    (r.adjust_limit scan_errors false create_limiter).tuning_lock = r.tuning_lock ∧
    (r.adjust_limit scan_errors false create_limiter).policy_data.heap = r.policy_data.heap ∧
    (r.adjust_limit scan_errors false create_limiter).policy_data.errors = r.policy_data.errors ∧
    (r.adjust_limit scan_errors false create_limiter).policy_data.limit = r.policy_data.limit ∧
    (r.policy_data.remove_limit = true →
      (r.adjust_limit scan_errors false create_limiter).rate_limiter = none ∧
      (r.adjust_limit scan_errors false create_limiter).policy_data.remove_limit = false) := by
  unfold Requester.adjust_limit
  simp only [Bool.false_eq_true, if_false]
  by_cases hrem : r.policy_data.remove_limit = true
  · rw [if_pos hrem]
    exact ⟨rfl, rfl, rfl, rfl, fun _ => ⟨rfl, rfl⟩⟩
  · rw [if_neg hrem]
    by_cases hcl : create_limiter = true
    · rw [if_pos hcl]
      obtain ⟨hpd, htl⟩ := set_rate_limiter_frame r (some r.policy_data.get_limit)
      exact ⟨htl, by rw [hpd], by rw [hpd], by rw [hpd], fun hr => absurd hr hrem⟩
    · rw [if_neg hcl]
      exact ⟨rfl, rfl, rfl, rfl, fun hr => absurd hr hrem⟩

/-- C6 witness: a requester holding a bucket with `remove_limit` pending;
the contended call leaves everything but the limiter alone and honors the
flag. -/
theorem c6_contended_adjust_frame_witness :
    (requesterR1.adjust_limit 5 false true).tuning_lock = requesterR1.tuning_lock ∧
    (requesterR1.adjust_limit 5 false true).policy_data.heap = requesterR1.policy_data.heap ∧
    (requesterR1.adjust_limit 5 false true).policy_data.errors =
      requesterR1.policy_data.errors ∧
    (requesterR1.adjust_limit 5 false true).policy_data.limit =
      requesterR1.policy_data.limit ∧
    (requesterR1.policy_data.remove_limit = true →
      (requesterR1.adjust_limit 5 false true).rate_limiter = none ∧
      (requesterR1.adjust_limit 5 false true).policy_data.remove_limit = false) :=
  c6_contended_adjust_frame requesterR1 5 true

/-- C7: `has_children` holds exactly when `current*2 + 2 ≤ 254`;
equivalently, at any cursor index at least 127 both `move_left` and
`move_right` are no-ops returning the same index. -/
theorem c7_leaf_navigation (h : LimitHeap) :
    (h.has_children = true ↔ h.current * 2 + 2 ≤ 254) ∧
    (127 ≤ h.current → h.move_left = (h, h.current) ∧ h.move_right = (h, h.current)) := by
  constructor
  · rw [has_children_iff]
    omega
  · intro hc
    have hch : ¬h.has_children = true := by
      rw [has_children_iff]
      omega
    constructor
    · rw [LimitHeap.move_left, if_neg hch]
    · rw [LimitHeap.move_right, if_neg hch]

/-- C7 witness: at cursor 130 the iff specialises and both moves are
no-ops. -/
theorem c7_leaf_navigation_witness :
    ((initHeap 400).move_to 130).has_children = true ↔
      ((initHeap 400).move_to 130).current * 2 + 2 ≤ 254 :=
  (c7_leaf_navigation ((initHeap 400).move_to 130)).1

/-- C8: `bail` returns success for every trigger and every scan state: the
status-set, abort and stats-send sub-results are swallowed, and when the
scan is not active the call performs no action and returns success. -/
theorem c8_bail_always_ok (is_active : Bool)
    (set_status_res abort_res send_res : Except String Unit)
    (pb_length pb_position : Nat) :
    (bail is_active set_status_res abort_res send_res pb_length pb_position).1 =
      Except.ok () ∧
    (is_active = false →
      bail is_active set_status_res abort_res send_res pb_length pb_position =
        (Except.ok (), [])) := by
  cases is_active
  · exact ⟨rfl, fun _ => rfl⟩
  · exact ⟨rfl, fun hfalse => Bool.noConfusion hfalse⟩

/-- C8 witness: an inactive scan with failing sub-steps still yields
success and no effects. -/
theorem c8_bail_always_ok_witness :
    (bail false (Except.ok ()) (Except.ok ()) (Except.ok ()) 100 40).1 = Except.ok () ∧
    (false = false →
      bail false (Except.ok ()) (Except.ok ()) (Except.ok ()) 100 40 = (Except.ok (), [])) :=
  c8_bail_always_ok false (Except.ok ()) (Except.ok ()) (Except.ok ()) 100 40

/-- C9: `limit` panics (modelled as `none`) exactly when `rate_limiter` is
`None`; under the `Some`-check `request` performs before calling, the
unwrap branch is unreachable. -/
theorem c9_limit_requires_bucket (r : Requester) (acquire_res : Except String Unit) :
    (r.limit acquire_res = none ↔ r.rate_limiter = none) ∧
    (∀ (auto_tune : Bool) (rate_limit : Nat),
      r.should_limit auto_tune rate_limit = true →
        (r.limit acquire_res).isSome = true) := by
  cases hrl : r.rate_limiter with
  | none =>
    constructor
    · unfold Requester.limit
      rw [hrl]
      simp
    · intro auto_tune rate_limit hsl
      unfold Requester.should_limit at hsl
      rw [hrl] at hsl
      simp at hsl
  | some b =>
    constructor
    · unfold Requester.limit
      rw [hrl]
      simp
    · intro auto_tune rate_limit hsl
      unfold Requester.limit
      rw [hrl]
      rfl

/-- C9 witness: with a bucket installed, `request`'s guard holds and
`limit` does not hit the unwrap panic. -/
theorem c9_limit_requires_bucket_witness :
    (requesterR1.limit (Except.ok ()) = none ↔ requesterR1.rate_limiter = none) ∧
    (requesterR1.limit (Except.ok ())).isSome = true :=
  ⟨(c9_limit_requires_bucket requesterR1 (Except.ok ())).1,
    (c9_limit_requires_bucket requesterR1 (Except.ok ())).2 true 0 (by decide)⟩

/-- C3: after `build` from a non-negative seed, every internal node `i` of
the 255-slot tree satisfies `inner[2i+1] ≥ inner[i] ≥ inner[2i+2]`. -/
theorem c3_heap_shape (orig : Int) (h0 : 0 ≤ orig) (h1 : orig < 2 ^ 31) (i : Nat)
    (hi : i * 2 + 2 ≤ 254) :
    ((initHeap orig).build).inner i ≤ ((initHeap orig).build).inner (2 * i + 1) ∧
    ((initHeap orig).build).inner (2 * i + 2) ≤ ((initHeap orig).build).inner i := by
  rw [build_inner_eq orig i (by omega), build_inner_eq orig (2 * i + 1) (by omega),
    build_inner_eq orig (2 * i + 2) (by omega), vp_left, vp_right]
  have hd := tdiv_abs_two_nonneg ((vp orig i).2 - (vp orig i).1)
  constructor
  · exact le_add_of_nonneg_right hd
  · exact sub_le_self _ hd

/-- C3 witness: the 400-seeded tree at internal node 1 (children 3 and 4). -/
theorem c3_heap_shape_witness :
    (0 : Int) ≤ 400 ∧ (400 : Int) < 2 ^ 31 ∧ 1 * 2 + 2 ≤ 254 ∧
    (((initHeap 400).build).inner 1 ≤ ((initHeap 400).build).inner (2 * 1 + 1) ∧
      ((initHeap 400).build).inner (2 * 1 + 2) ≤ ((initHeap 400).build).inner 1) :=
  ⟨by decide, by decide, by decide, c3_heap_shape 400 (by decide) (by decide) 1 (by decide)⟩

/-- C10: after `build` from a non-negative in-range seed, every entry of
the backing array lies in `[0, original]`; in particular the `i32 as usize`
cast that `set_limit` receives never wraps. -/
theorem c10_values_bounded (orig : Int) (h0 : 0 ≤ orig) (h1 : orig < 2 ^ 31) (j : Nat)
    (hj : j < 255) :
    0 ≤ ((initHeap orig).build).inner j ∧ ((initHeap orig).build).inner j ≤ orig ∧
    ((usizeOfI32 (((initHeap orig).build).inner j) : Nat) : Int) =
      ((initHeap orig).build).inner j := by
  rw [build_inner_eq orig j hj]
  obtain ⟨hb1, hb2, hb3⟩ := vp_bounds orig h0 j
  have habs : 0 ≤ |(vp orig j).2 - (vp orig j).1| := abs_nonneg _
  have hle : (vp orig j).1 ≤ orig := by linarith
  refine ⟨hb1, hle, ?_⟩
  unfold usizeOfI32
  have h64 : (2 : Int) ^ 31 < 2 ^ 64 := by norm_num
  have hmod : (vp orig j).1 % 2 ^ 64 = (vp orig j).1 :=
    Int.emod_eq_of_lt hb1 (by linarith)
  rw [hmod, Int.toNat_of_nonneg hb1]

/-- C10 witness: slot 5 of the 400-seeded tree. -/
theorem c10_values_bounded_witness :
    (0 : Int) ≤ 400 ∧ (400 : Int) < 2 ^ 31 ∧ 5 < 255 ∧
    (0 ≤ ((initHeap 400).build).inner 5 ∧ ((initHeap 400).build).inner 5 ≤ 400 ∧
      ((usizeOfI32 (((initHeap 400).build).inner 5) : Nat) : Int) =
        ((initHeap 400).build).inner 5) :=
  ⟨by decide, by decide, by decide, c10_values_bounded 400 (by decide) (by decide) 5 (by decide)⟩

/-- C2 counterexample: at `N = 2` the claimed identity `inner[2] = N/4`
fails — the built tree has `inner[2] = 1` while `2 / 4 = 0` (the code
computes `N/2 - |N - N/2|/2`, which is not `N/4` when `N % 4 = 2`). -/
theorem c2_counterexample :
    (policyDataDefault.set_reqs_sec 2).heap.inner 2 = 1 ∧
    ¬ (policyDataDefault.set_reqs_sec 2).heap.inner 2 = ((2 / 4 : Nat) : Int) := by
  decide

/-- C2 (amended): after `set_reqs_sec(N)` on a fresh `PolicyData` with
`N < 2^31`, the tree satisfies `inner[0] = N/2`,
`inner[1] = N/2 + (N - N/2)/2`, `inner[2] = N/2 - (N - N/2)/2` (integer
division; these equal the spec's `N/2 + N/4` and `N/4` exactly when
`N mod 4 < 2`), the cursor is 0, and the limit is `N/2`. -/
theorem c2_set_reqs_sec (N : Nat) (hN : N < 2 ^ 31) :
    (policyDataDefault.set_reqs_sec N).heap.inner 0 = ((N / 2 : Nat) : Int) ∧
    (policyDataDefault.set_reqs_sec N).heap.inner 1 =
      ((N / 2 : Nat) : Int) + (((N - N / 2) / 2 : Nat) : Int) ∧
    (policyDataDefault.set_reqs_sec N).heap.inner 2 =
      ((N / 2 : Nat) : Int) - (((N - N / 2) / 2 : Nat) : Int) ∧
    (policyDataDefault.set_reqs_sec N).heap.current = 0 ∧
    (policyDataDefault.set_reqs_sec N).limit = N / 2 := by
  rw [set_reqs_sec_eq, i32ofNat_small N hN]
  rw [show ({ policyDataDefault.heap with original := ((N : Nat) : Int) } : LimitHeap) =
    initHeap ((N : Nat) : Int) from rfl]
  dsimp only
  have hv0 : (vp ((N : Nat) : Int) 0) = (Int.tdiv ((N : Nat) : Int) 2, ((N : Nat) : Int)) := by
    rw [vp]
  have habs : (((N : Nat) : Int) - ((N / 2 : Nat) : Int)).natAbs = N - N / 2 := by omega
  refine ⟨?_, ?_, ?_, build_current _, ?_⟩
  · rw [build_inner_eq _ 0 (by omega), hv0, tdiv_ofNat_two]
  · rw [build_inner_eq _ 1 (by omega)]
    have hv := vp_left ((N : Nat) : Int) 0
    rw [show 2 * 0 + 1 = 1 by ring] at hv
    rw [hv]
    dsimp only
    rw [hv0]
    dsimp only
    rw [tdiv_ofNat_two, tdiv_abs_two, habs]
  · rw [build_inner_eq _ 2 (by omega)]
    have hv := vp_right ((N : Nat) : Int) 0
    rw [show 2 * 0 + 2 = 2 by ring] at hv
    rw [hv]
    dsimp only
    rw [hv0]
    dsimp only
    rw [tdiv_ofNat_two, tdiv_abs_two, habs]
  · rw [build_inner_eq _ 0 (by omega), hv0]
    dsimp only
    rw [tdiv_ofNat_two]
    exact usizeOfI32_ofNat _ (by omega)

/-- C2 witness: the amended identities at the spec's own example seed 400. -/
theorem c2_set_reqs_sec_witness :
    400 < 2 ^ 31 ∧
    ((policyDataDefault.set_reqs_sec 400).heap.inner 0 = ((400 / 2 : Nat) : Int) ∧
      (policyDataDefault.set_reqs_sec 400).heap.inner 1 =
        ((400 / 2 : Nat) : Int) + (((400 - 400 / 2) / 2 : Nat) : Int) ∧
      (policyDataDefault.set_reqs_sec 400).heap.inner 2 =
        ((400 / 2 : Nat) : Int) - (((400 - 400 / 2) / 2 : Nat) : Int) ∧
      (policyDataDefault.set_reqs_sec 400).heap.current = 0 ∧
      (policyDataDefault.set_reqs_sec 400).limit = 400 / 2) :=
  ⟨by decide, c2_set_reqs_sec 400 (by decide)⟩

/-- C1 counterexample: on the 400-seeded tree with the cursor at index 7
(value 375) and a streak above 2, the two moves up land on index 1 (value
300, less than 375), the node has a parent — but that parent's value (200)
does not exceed 375, so the code neither moves up once more nor sets
`remove_limit`; the claim's dichotomy (extra move, or else
`remove_limit = true`) fails here. -/
theorem c1_counterexample :
    pd400c7.heap.value = 375 ∧ (upTwice pd400c7.heap).value = 300 ∧
    (upTwice pd400c7.heap).has_parent = true ∧
    ¬ (upTwice pd400c7.heap).parent_value > pd400c7.heap.value ∧
    (pd400c7.adjust_up 3).heap.current = (upTwice pd400c7.heap).current ∧
    (upTwice pd400c7.heap).current = 1 ∧
    (pd400c7.adjust_up 3).remove_limit = false := by
  decide

/-- C1 (amended): for `adjust_up(streak)` with `streak > 2` the cursor
moves up twice; if the recorded value before moving exceeds the value after
the two moves, then either the node has a parent whose value exceeds the
recorded value and the cursor moves up once more, or the node has no parent
and `remove_limit` is set, or the node has a parent whose value does not
exceed the recorded value and the cursor stays with `remove_limit`
unchanged; in every case the limit becomes the value at the final cursor
and the tree contents are untouched. -/
theorem c1_adjust_up_streak (pd : PolicyData) (streak : Nat) (hs : 2 < streak) :
    (pd.adjust_up streak).heap.inner = pd.heap.inner ∧
    (pd.adjust_up streak).limit = usizeOfI32 ((pd.adjust_up streak).heap.value) ∧
    (pd.heap.value > (upTwice pd.heap).value →
      (((upTwice pd.heap).has_parent = true ∧
        (upTwice pd.heap).parent_value > pd.heap.value ∧
        (pd.adjust_up streak).heap.current = (((upTwice pd.heap).move_up).1).current ∧
        (pd.adjust_up streak).remove_limit = pd.remove_limit) ∨
      ((upTwice pd.heap).has_parent = false ∧
        (pd.adjust_up streak).remove_limit = true ∧
        (pd.adjust_up streak).heap.current = (upTwice pd.heap).current) ∨
      ((upTwice pd.heap).has_parent = true ∧
        ¬ (upTwice pd.heap).parent_value > pd.heap.value ∧
        (pd.adjust_up streak).heap.current = (upTwice pd.heap).current ∧
        (pd.adjust_up streak).remove_limit = pd.remove_limit))) ∧
    (¬ pd.heap.value > (upTwice pd.heap).value →
      (pd.adjust_up streak).heap.current = (upTwice pd.heap).current ∧
      (pd.adjust_up streak).remove_limit = pd.remove_limit) := by
  unfold PolicyData.adjust_up
  rw [if_pos hs]
  dsimp only
  by_cases hgt : pd.heap.value > (upTwice pd.heap).value
  · rw [if_pos hgt]
    by_cases hc1 : (upTwice pd.heap).has_parent = true ∧
        (upTwice pd.heap).parent_value > pd.heap.value
    · rw [if_pos hc1]
      dsimp only [PolicyData.set_limit]
      refine ⟨?_, rfl, fun _ => Or.inl ⟨hc1.1, hc1.2, rfl, rfl⟩, fun hn => absurd hgt hn⟩
      rw [move_up_inner, upTwice_inner]
    · rw [if_neg hc1]
      by_cases hc2 : (upTwice pd.heap).has_parent = false
      · rw [if_pos hc2]
        dsimp only [PolicyData.set_limit]
        refine ⟨?_, rfl, fun _ => Or.inr (Or.inl ⟨hc2, rfl, rfl⟩), fun hn => absurd hgt hn⟩
        rw [upTwice_inner]
      · rw [if_neg hc2]
        dsimp only [PolicyData.set_limit]
        have hpt : (upTwice pd.heap).has_parent = true := by
          cases hb : (upTwice pd.heap).has_parent
          · exact absurd hb hc2
          · rfl
        have hnv : ¬ (upTwice pd.heap).parent_value > pd.heap.value := fun hv => hc1 ⟨hpt, hv⟩
        refine ⟨?_, rfl, fun _ => Or.inr (Or.inr ⟨hpt, hnv, rfl, rfl⟩), fun hn => absurd hgt hn⟩
        rw [upTwice_inner]
  · rw [if_neg hgt]
    dsimp only [PolicyData.set_limit]
    refine ⟨?_, rfl, fun hg => absurd hg hgt, fun _ => ⟨rfl, rfl⟩⟩
    rw [upTwice_inner]

/-- C1 witness: the trichotomy applied to a fresh (all-zero) policy data
with streak 3. -/
theorem c1_adjust_up_streak_witness :
    2 < 3 ∧
    ((policyDataDefault.adjust_up 3).heap.inner = policyDataDefault.heap.inner ∧
      (policyDataDefault.adjust_up 3).limit =
        usizeOfI32 ((policyDataDefault.adjust_up 3).heap.value) ∧
      (policyDataDefault.heap.value > (upTwice policyDataDefault.heap).value →
        (((upTwice policyDataDefault.heap).has_parent = true ∧
          (upTwice policyDataDefault.heap).parent_value > policyDataDefault.heap.value ∧
          (policyDataDefault.adjust_up 3).heap.current =
            (((upTwice policyDataDefault.heap).move_up).1).current ∧
          (policyDataDefault.adjust_up 3).remove_limit = policyDataDefault.remove_limit) ∨
        ((upTwice policyDataDefault.heap).has_parent = false ∧
          (policyDataDefault.adjust_up 3).remove_limit = true ∧
          (policyDataDefault.adjust_up 3).heap.current =
            (upTwice policyDataDefault.heap).current) ∨
        ((upTwice policyDataDefault.heap).has_parent = true ∧
          ¬ (upTwice policyDataDefault.heap).parent_value > policyDataDefault.heap.value ∧
          (policyDataDefault.adjust_up 3).heap.current =
            (upTwice policyDataDefault.heap).current ∧
          (policyDataDefault.adjust_up 3).remove_limit = policyDataDefault.remove_limit))) ∧
      (¬ policyDataDefault.heap.value > (upTwice policyDataDefault.heap).value →
        (policyDataDefault.adjust_up 3).heap.current =
          (upTwice policyDataDefault.heap).current ∧
        (policyDataDefault.adjust_up 3).remove_limit = policyDataDefault.remove_limit)) :=
  ⟨by decide, c1_adjust_up_streak policyDataDefault 3 (by decide)⟩

/-- C5 counterexample: with the scan's observed rate 0, the first `tune`
on a requester without a limiter does install a token bucket — built from
limit 0 — contradicting the claim that no bucket is ever created or
swapped in. -/
theorem c5_counterexample :
    (requesterFresh.tune 0 0 true).rate_limiter = some (build_a_bucket 0) := by
  decide

/-- C5 (amended): with seed 0, `build` leaves every entry of the tree at
zero and `set_reqs_sec(0)` sets the limit to 0, but the core does install a
bucket: the first `tune` with observed rate 0 swaps in `build_a_bucket 0`,
a degenerate bucket with `max = 0`. -/
theorem c5_zero_seed (j : Nat) (hj : j < 255) :
    ((initHeap 0).build).inner j = 0 ∧
    (policyDataDefault.set_reqs_sec 0).limit = 0 ∧
    (requesterFresh.tune 0 0 true).rate_limiter = some (build_a_bucket 0) ∧
    (build_a_bucket 0).max = 0 := by
  refine ⟨?_, ?_, by decide, rfl⟩
  · rw [build_inner_eq 0 j (by omega), vp_zero]
  · rw [set_reqs_sec_eq]
    rw [show i32ofNat 0 = (0 : Int) from rfl]
    rw [show ({ policyDataDefault.heap with original := (0 : Int) } : LimitHeap) =
      initHeap 0 from rfl]
    dsimp only
    rw [build_inner_eq 0 0 (by omega), vp_zero]
    rfl

/-- C5 witness: the zero-seed facts at slot 7. -/
theorem c5_zero_seed_witness :
    7 < 255 ∧
    (((initHeap 0).build).inner 7 = 0 ∧
      (policyDataDefault.set_reqs_sec 0).limit = 0 ∧
      (requesterFresh.tune 0 0 true).rate_limiter = some (build_a_bucket 0) ∧
      (build_a_bucket 0).max = 0) :=
  ⟨by decide, c5_zero_seed 7 (by decide)⟩
